import Mathlib

/-!
Shallow embedding of `pde/tools/parameters.py`: parameter management for
class hierarchies (`Parameter`, `DeprecatedParameter`, `HideParameter`,
`Parameterized.get_parameters`, `Parameterized._parse_parameters`,
`get_all_parameters`).

Python values that occur as parameter defaults and overrides are modelled
by the inductive `Value`; Python `None` is `Value.none`.  The type slots
of descriptors (`cls` in the source) are modelled by `PyType`, covering
the untyped sentinel `object` and the converters `int` and `str` used in
the specification's scenarios.  Python objects are mutable, so descriptor
objects live in a `Store` (a list indexed by object ids) and class
declaration lists reference them through those ids; mutation of a
descriptor (`parameters[p.name].hidden = True` in the source) becomes an
explicit store update threaded through the resolution functions.
-/

namespace PyPde

/-- a Python value appearing as a parameter default or override -/
inductive Value where
  | none
  | int (n : Int)
  | str (s : String)
  | list (vs : List Value)

mutual

/-- decidable equality of values (written by hand because the `list`
constructor nests `Value` inside `List`) -/
def Value.decEq : (a b : Value) → Decidable (a = b)
  | .none, .none => .isTrue rfl
  | .none, .int _ => .isFalse (fun h => Value.noConfusion h)
  | .none, .str _ => .isFalse (fun h => Value.noConfusion h)
  | .none, .list _ => .isFalse (fun h => Value.noConfusion h)
  | .int _, .none => .isFalse (fun h => Value.noConfusion h)
  | .int n, .int m =>
    if h : n = m then .isTrue (by rw [h])
    else .isFalse (fun he => h (by injection he))
  | .int _, .str _ => .isFalse (fun h => Value.noConfusion h)
  | .int _, .list _ => .isFalse (fun h => Value.noConfusion h)
  | .str _, .none => .isFalse (fun h => Value.noConfusion h)
  | .str _, .int _ => .isFalse (fun h => Value.noConfusion h)
  | .str s, .str t =>
    if h : s = t then .isTrue (by rw [h])
    else .isFalse (fun he => h (by injection he))
  | .str _, .list _ => .isFalse (fun h => Value.noConfusion h)
  | .list _, .none => .isFalse (fun h => Value.noConfusion h)
  | .list _, .int _ => .isFalse (fun h => Value.noConfusion h)
  | .list _, .str _ => .isFalse (fun h => Value.noConfusion h)
  | .list vs, .list ws =>
    match Value.decEqList vs ws with
    | .isTrue h => .isTrue (by rw [h])
    | .isFalse h => .isFalse (fun he => h (by injection he))
termination_by structural a => a

/-- decidable equality of lists of values -/
def Value.decEqList : (a b : List Value) → Decidable (a = b)
  | [], [] => .isTrue rfl
  | [], _ :: _ => .isFalse (fun h => List.noConfusion h)
  | _ :: _, [] => .isFalse (fun h => List.noConfusion h)
  | v :: vs, w :: ws =>
    match Value.decEq v w with
    | .isFalse h1 => .isFalse (fun he => h1 (by injection he))
    | .isTrue h1 =>
      match Value.decEqList vs ws with
      | .isTrue h2 => .isTrue (by rw [h1, h2])
      | .isFalse h2 => .isFalse (fun he => h2 (by injection he))
termination_by structural a => a

end

instance : DecidableEq Value := Value.decEq

/-- the type slot of a descriptor: `object` is the untyped sentinel; `int`
and `str` are the builtin converters used by the scenarios -/
inductive PyType where
  | object
  | int
  | str
deriving DecidableEq

/-- outcome of calling a Python type constructor on a value -/
inductive ConvResult where
  | ok (v : Value)
  | valueErr
  | typeErr
deriving DecidableEq

mutual

/-- Python `repr` of a value (strings quoted), used for list elements -/
def pyRepr : Value → String
  | .none => "None"
  | .int n => toString n
  | .str s => "'" ++ s ++ "'"
  | .list vs => "[" ++ String.intercalate ", " (pyReprList vs) ++ "]"
termination_by structural v => v

/-- Python `repr` applied to each element of a list -/
def pyReprList : List Value → List String
  | [] => []
  | v :: vs => pyRepr v :: pyReprList vs
termination_by structural v => v

end

/-- Python `str` of a value: identity on strings, decimal rendering of
integers, `"None"` for `None`, bracketed element reprs for lists -/
def pyStr : Value → String
  | .none => "None"
  | .int n => toString n
  | .str s => s
  | .list vs => "[" ++ String.intercalate ", " (pyReprList vs) ++ "]"

/-- the numeric value of a decimal digit character, if it is one -/
def digitVal (c : Char) : Option Nat :=
  if 48 ≤ c.val.toNat ∧ c.val.toNat ≤ 57 then some (c.val.toNat - 48)
  else Option.none

/-- parse a nonempty run of decimal digits into a number -/
def parseNatDigits : List Char → Nat → Option Nat
  | [], acc => some acc
  | c :: cs, acc =>
    match digitVal c with
    | some d => parseNatDigits cs (acc * 10 + d)
    | Option.none => Option.none

/-- Python `int(s)` on a string: an optional sign followed by at least
one decimal digit parses to an integer, anything else is a
`ValueError` -/
def pyIntOfString (s : String) : Option Int :=
  match s.data with
  | [] => Option.none
  | '-' :: [] => Option.none
  | '-' :: cs => (parseNatDigits cs 0).map (fun n => -(n : Int))
  | '+' :: [] => Option.none
  | '+' :: cs => (parseNatDigits cs 0).map (fun n => (n : Int))
  | cs => (parseNatDigits cs 0).map (fun n => (n : Int))

/-- Python `int(v)`: integers pass through, strings are parsed (a
non-numeric string raises `ValueError`), `None` and lists raise
`TypeError` -/
def pyCallInt : Value → ConvResult
  | .int n => .ok (.int n)
  | .str s =>
    match pyIntOfString s with
    | some n => .ok (.int n)
    | Option.none => .valueErr
  | .none => .typeErr
  | .list _ => .typeErr

/-- calling a Python type constructor on a value: `object(v)` raises
`TypeError` (never reached by the source, which guards on
`cls is object`); `int` parses or raises; `str` always succeeds -/
def pyCall : PyType → Value → ConvResult
  | .object, _ => .typeErr
  | .int, v => pyCallInt v
  | .str, v => .ok (.str (pyStr v))

/-- an exception escaping one of the modelled operations.  Each
constructor corresponds to one raise site: `keyError` to the dict
lookups in `get_parameters`, `conversionError` to the descriptive
`ValueError` built in `Parameter.convert` (carrying the parameter name,
the offending value and the target type that the source interpolates
into the message), `builtinValueError` and `builtinTypeError` to
exceptions raised by the type constructor itself and not caught
(`Parameter.__init__` catches nothing; `Parameter.convert` catches only
`ValueError`), `unknownParametersError` to the `ValueError` of
`_parse_parameters` (carrying the sorted unknown keys and the class
name), and `badModeError` to the `ValueError` of `get_all_parameters` -/
inductive PyErr where
  | keyError (name : String)
  | conversionError (paramName : String) (value : Value) (target : PyType)
  | builtinValueError
  | builtinTypeError
  | unknownParametersError (names : List String) (clsName : String)
  | badModeError (data : String)
deriving DecidableEq

/-- the state of one `Parameter` object: fields of `Parameter.__init__`
plus `deprecated`, which models `isinstance(p, DeprecatedParameter)` -/
structure Parameter where
  name : String
  default_value : Value
  cls : PyType
  description : String
  hidden : Bool
  deprecated : Bool
deriving DecidableEq

/-- placeholder descriptor used for out-of-range store reads, which the
source cannot produce (every reference points at a live object) -/
def dummyParam : Parameter :=
  ⟨"", Value.none, PyType.object, "", false, false⟩

/-- `Parameter.convert` (parameters.py lines 82-106): substitute the
default when the value is `None`; return unchanged for the untyped
sentinel; otherwise call the type, wrapping a `ValueError` in the
descriptive message and letting any other exception propagate raw -/
def Parameter.convert (p : Parameter) (value : Value) : Except PyErr Value :=
  let value := if value = Value.none then p.default_value else value
  if p.cls = PyType.object then
    .ok value
  else
    match pyCall p.cls value with
    | .ok v => .ok v
    | .valueErr => .error (.conversionError p.name value p.cls)
    | .typeErr => .error .builtinTypeError

/-- `Parameter.__init__` (parameters.py lines 29-56): stores the fields,
then, when `cls` is not `object`, evaluates `cls(default_value)` with no
exception handler — a raising conversion escapes the constructor — and
compares the result with the default; the returned `Bool` records
whether the non-fatal warning was logged (conversion succeeded with an
unequal result) -/
def Parameter.make (name : String) (default_value : Value) (cls : PyType)
    (description : String) (hidden : Bool) : Except PyErr (Parameter × Bool) :=
  if cls = PyType.object then
    .ok (⟨name, default_value, cls, description, hidden, false⟩, false)
  else
    match pyCall cls default_value with
    | .ok v =>
      .ok (⟨name, default_value, cls, description, hidden, false⟩,
           decide (v ≠ default_value))
    | .valueErr => .error .builtinValueError
    | .typeErr => .error .builtinTypeError

/-- an insertion-ordered dictionary, modelling a Python `dict` as an
association list with unique keys -/
abbrev Dict (α : Type) : Type := List (String × α)

/-- lookup in a dictionary: the first binding for the key, if any -/
def dictGet {α : Type} (d : Dict α) (k : String) : Option α :=
  match d with
  | [] => Option.none
  | (k', v) :: rest => if k' = k then some v else dictGet rest k

/-- `d[k] = v` on a Python dict: overwrite in place when the key exists
(the binding keeps its position), otherwise append at the end -/
def dictSet {α : Type} (d : Dict α) (k : String) (v : α) : Dict α :=
  match d with
  | [] => [(k, v)]
  | (k', v') :: rest =>
    if k' = k then (k', v) :: rest else (k', v') :: dictSet rest k v

/-- `del d[k]` on a Python dict: remove the binding, or `none` for the
`KeyError` when the key is absent -/
def dictDel {α : Type} (d : Dict α) (k : String) : Option (Dict α) :=
  match d with
  | [] => Option.none
  | (k', v') :: rest =>
    if k' = k then some rest else (dictDel rest k).map (fun r => (k', v') :: r)

/-- `d.pop(k, None)` on a Python dict of values: return the removed value
(or `None` when the key is absent) together with the remaining dict -/
def dictPop (d : Dict Value) (k : String) : Value × Dict Value :=
  match d with
  | [] => (Value.none, [])
  | (k', v') :: rest =>
    if k' = k then (v', rest)
    else
      let (v, r) := dictPop rest k
      (v, (k', v') :: r)

/-- `d.update(e)` on a Python dict: set every binding of `e` in `d`, in
order -/
def dictUpdate {α : Type} (d e : Dict α) : Dict α :=
  e.foldl (fun acc p => dictSet acc p.1 p.2) d

/-- lexicographic code-point comparison of character lists, the order
Python uses to sort strings -/
def charListLe : List Char → List Char → Bool
  | [], _ => true
  | _ :: _, [] => false
  | c :: cs, d :: ds =>
    if c.val < d.val then true
    else if d.val < c.val then false
    else charListLe cs ds

/-- Python `s <= t` on strings -/
def strLe (s t : String) : Bool :=
  charListLe s.data t.data

/-- insert one binding into a key-sorted dictionary -/
def insertSorted {α : Type} (p : String × α) (d : Dict α) : Dict α :=
  match d with
  | [] => [p]
  | q :: rest => if strLe p.1 q.1 then p :: q :: rest else q :: insertSorted p rest

/-- `OrderedDict(sorted(d.items()))`: the dictionary reordered by key
(keys are unique, so comparing first components decides the order) -/
def sortDict {α : Type} (d : Dict α) : Dict α :=
  d.foldr insertSorted []

/-- insert one string into a sorted list of strings -/
def insertSortedStr (s : String) (l : List String) : List String :=
  match l with
  | [] => [s]
  | t :: rest => if strLe s t then s :: t :: rest else t :: insertSortedStr s rest

/-- Python `sorted` on a list of strings -/
def sortStrings (l : List String) : List String :=
  l.foldr insertSortedStr []

/-- one entry of a class's `parameters_default` list: either a reference
to a `Parameter` object in the store, or a `HideParameter(name)` -/
inductive DeclItem where
  | param (ref : Nat)
  | hide (name : String)
deriving DecidableEq

/-- the heap of `Parameter` objects, indexed by object id -/
abbrev Store : Type := List Parameter

/-- the list of `parameters_default` lists along a class's method
resolution order, already reversed to run from most general to most
specific (the order `get_parameters` iterates) -/
abbrev Chain : Type := List (List DeclItem)

/-- the name field of the store object with id `r` -/
def nameAt (store : Store) (r : Nat) : String :=
  (store.getD r dummyParam).name

/-- the default-value field of the store object with id `r` -/
def defaultAt (store : Store) (r : Nat) : Value :=
  (store.getD r dummyParam).default_value

/-- `parameters[p.name].hidden = True`: set the hidden flag of the store
object with id `r`, leaving every other field and object unchanged -/
def storeSetHidden : Store → Nat → Store
  | [], _ => []
  | p :: rest, 0 => { p with hidden := true } :: rest
  | p :: rest, n + 1 => p :: storeSetHidden rest n

/-- the flattened iteration of `get_parameters` (parameters.py lines
187-189): `for cls in reversed(cls.__mro__): for p in cls.parameters_default:` -/
def chainItems : Chain → List DeclItem
  | [] => []
  | l :: ls => l ++ chainItems ls

/-- the loop body of `Parameterized.get_parameters` (parameters.py lines
186-197) over the flattened ancestor items.  A `HideParameter` either
marks the already-merged descriptor hidden (when hidden parameters are
included) or deletes the entry; both branches raise `KeyError` when the
name was never merged.  A `DeprecatedParameter` is skipped unless
deprecated parameters are included; any other `Parameter` always
inserts/overwrites under its name -/
def gpLoop (store : Store) (items : List DeclItem)
    (include_hidden include_deprecated : Bool) (acc : Dict Nat) :
    Except PyErr (Dict Nat × Store) :=
  match items with
  | [] => .ok (acc, store)
  | DeclItem.hide nm :: rest =>
    if include_hidden then
      match dictGet acc nm with
      | Option.none => .error (.keyError nm)
      | some r => gpLoop (storeSetHidden store r) rest include_hidden include_deprecated acc
    else
      match dictDel acc nm with
      | Option.none => .error (.keyError nm)
      | some acc' => gpLoop store rest include_hidden include_deprecated acc'
  | DeclItem.param r :: rest =>
    let p := store.getD r dummyParam
    if include_deprecated || !p.deprecated then
      gpLoop store rest include_hidden include_deprecated (dictSet acc p.name r)
    else
      gpLoop store rest include_hidden include_deprecated acc

/-- `Parameterized.get_parameters` (parameters.py lines 171-201): merge
the ancestor chain general-to-specific into a name-to-descriptor
mapping, optionally sorted by name.  The returned store reflects the
hidden-flag mutations performed while merging -/
def get_parameters (store : Store) (chain : Chain)
    (include_hidden include_deprecated sort : Bool) :
    Except PyErr (Dict Nat × Store) :=
  match gpLoop store (chainItems chain) include_hidden include_deprecated [] with
  | .error e => .error e
  | .ok (parameters, store') =>
    .ok ((if sort then sortDict parameters else parameters), store')

/-- the loop of `Parameterized._parse_parameters` (parameters.py lines
233-238): for each resolved descriptor, skip it when hidden parameters
are disallowed and it is hidden, otherwise pop the matching override (or
`None`) and convert it -/
def ppLoop (store : Store) (objs : Dict Nat) (allow_hidden : Bool)
    (parameters : Dict Value) (result : Dict Value) :
    Except PyErr (Dict Value × Dict Value) :=
  match objs with
  | [] => .ok (result, parameters)
  | (name, r) :: rest =>
    let p := store.getD r dummyParam
    if !allow_hidden && p.hidden then
      ppLoop store rest allow_hidden parameters result
    else
      let (v, parameters') := dictPop parameters name
      match p.convert v with
      | .error e => .error e
      | .ok cv => ppLoop store rest allow_hidden parameters' (dictSet result name cv)

/-- `Parameterized._parse_parameters` (parameters.py lines 204-248):
resolve the class's parameters with `include_hidden=allow_hidden`, fill
the result from overrides and defaults, then either reject leftover
override keys (sorted, naming the class) or merge them in unconverted -/
def parse_parameters (store : Store) (chain : Chain) (cls_name : String)
    (parameters : Dict Value)
    (check_validity allow_hidden include_deprecated : Bool) :
    Except PyErr (Dict Value × Store) :=
  match get_parameters store chain allow_hidden include_deprecated true with
  | .error e => .error e
  | .ok (param_objs, store') =>
    match ppLoop store' param_objs allow_hidden parameters [] with
    | .error e => .error e
    | .ok (result, leftover) =>
      if check_validity && !leftover.isEmpty then
        .error (.unknownParametersError (sortStrings (leftover.map Prod.fst)) cls_name)
      else
        .ok (dictUpdate result leftover, store')

/-- `Parameterized.__init__` (parameters.py lines 141-153): parse the
supplied overrides with the default flags `check_validity=True`,
`allow_hidden=True`, `include_deprecated=False` -/
def init_parameters (store : Store) (chain : Chain) (cls_name : String)
    (parameters : Dict Value) : Except PyErr (Dict Value × Store) :=
  parse_parameters store chain cls_name parameters true true false

/-- one per-class answer of `get_all_parameters`: a set of names
(modelled by the sorted, duplicate-free key list of the sorted resolved
mapping), a name-to-default mapping, or a name-to-description mapping -/
inductive QueryResult where
  | names (ks : List String)
  | values (d : Dict Value)
  | descriptions (d : Dict String)
deriving DecidableEq

/-- the registry `Parameterized._subclasses`, mapping each registered
class name to that class's ancestor chain -/
abbrev Registry : Type := List (String × Chain)

/-- the loop of `get_all_parameters` (parameters.py lines 374-388) over
the registered classes: for each class resolve its parameters with
default flags and record names, defaults or descriptions depending on
`data`; an unrecognized `data` string raises inside the loop body -/
def gapLoop (store : Store) (entries : Registry) (data : Option String)
    (acc : Dict QueryResult) : Except PyErr (Dict QueryResult × Store) :=
  match entries with
  | [] => .ok (acc, store)
  | (nm, ch) :: rest =>
    if data = Option.none then
      match get_parameters store ch false false true with
      | .error e => .error e
      | .ok (pr, st) =>
        gapLoop st rest data (dictSet acc nm (.names (pr.map Prod.fst)))
    else if data = some "value" then
      match get_parameters store ch false false true with
      | .error e => .error e
      | .ok (pr, st) =>
        gapLoop st rest data
          (dictSet acc nm (.values (pr.map (fun q => (q.1, defaultAt st q.2)))))
    else if data = some "description" then
      match get_parameters store ch false false true with
      | .error e => .error e
      | .ok (pr, st) =>
        gapLoop st rest data
          (dictSet acc nm
            (.descriptions (pr.map (fun q => (q.1, (st.getD q.2 dummyParam).description)))))
    else
      .error (.badModeError (data.getD ""))

/-- `get_all_parameters` (parameters.py lines 372-388): query every
registered class; `data=None` yields name sets, `'value'` defaults,
`'description'` descriptions, anything else raises `ValueError` -/
def get_all_parameters (store : Store) (registry : Registry)
    (data : Option String) : Except PyErr (Dict QueryResult × Store) :=
  gapLoop store registry data []

/-- read a resolved name-to-reference mapping back through the store,
giving the observable name-to-descriptor mapping the caller sees -/
def materialize (store : Store) (d : Dict Nat) : Dict Parameter :=
  d.map (fun p => (p.1, store.getD p.2 dummyParam))

/-- whether one declaration item involves the parameter name `x`: a hide
directive for `x`, or a reference to a descriptor named `x` -/
def itemMentions (store : Store) (x : String) : DeclItem → Bool
  | .hide nm => decide (nm = x)
  | .param r => decide (nameAt store r = x)

/-! ## The specification's `Base`/`Derived` scenario

`Base` declares `[Parameter('size', 10, int), Parameter('label', 'x', str)]`
and `Derived(Base)` declares `[Parameter('size', 20, int),
HideParameter('label')]`.  The ancestor chains start with the empty
`parameters_default` list of `Parameterized` itself. -/

/-- descriptor objects of the scenario: ids 0 and 1 belong to `Base`,
id 2 to `Derived` -/
def scenarioStore : Store :=
  [⟨"size", Value.int 10, PyType.int, "", false, false⟩,
   ⟨"label", Value.str "x", PyType.str, "", false, false⟩,
   ⟨"size", Value.int 20, PyType.int, "", false, false⟩]

/-- the scenario store after resolving `Derived` with hidden parameters
included, which flips the hidden flag of `Base`'s `label` descriptor -/
def scenarioStoreHidden : Store :=
  [⟨"size", Value.int 10, PyType.int, "", false, false⟩,
   ⟨"label", Value.str "x", PyType.str, "", true, false⟩,
   ⟨"size", Value.int 20, PyType.int, "", false, false⟩]

/-- the ancestor chain of `Base`: `Parameterized`, then `Base` -/
def scenarioBaseChain : Chain :=
  [[], [DeclItem.param 0, DeclItem.param 1]]

/-- the ancestor chain of `Derived`: `Parameterized`, `Base`, `Derived` -/
def scenarioDerivedChain : Chain :=
  [[], [DeclItem.param 0, DeclItem.param 1],
   [DeclItem.param 2, DeclItem.hide "label"]]

/-- descriptor `x = 1` declared by the most general class of claim C3's
chain -/
def c3ParamA : Parameter := ⟨"x", Value.int 1, PyType.object, "", false, false⟩

/-- descriptor `x = 2` redeclared by the middle class of claim C3's
chain -/
def c3ParamB : Parameter := ⟨"x", Value.int 2, PyType.object, "", false, false⟩

/-! ## Dictionary lemmas -/

theorem dictGet_dictSet_self {α : Type} (d : Dict α) (k : String) (v : α) :
    dictGet (dictSet d k v) k = some v := by
  induction d with
  | nil => simp [dictGet, dictSet]
  | cons hd tl ih =>
    obtain ⟨k', v'⟩ := hd
    by_cases h : k' = k
    · subst h; simp [dictGet, dictSet]
    · simp [dictGet, dictSet, h, ih]

theorem dictGet_dictSet_ne {α : Type} (d : Dict α) (k k' : String) (v : α)
    (h : k' ≠ k) : dictGet (dictSet d k v) k' = dictGet d k' := by
  induction d with
  | nil => simp [dictGet, dictSet, Ne.symm h]
  | cons hd tl ih =>
    obtain ⟨k'', v''⟩ := hd
    by_cases hk : k'' = k
    · subst hk
      have : k'' ≠ k' := Ne.symm h
      simp [dictGet, dictSet, this]
    · by_cases hk' : k'' = k'
      · subst hk'; simp [dictGet, dictSet, hk]
      · simp [dictGet, dictSet, hk, hk', ih]

theorem dictDel_eq_none {α : Type} (d : Dict α) (k : String)
    (h : dictGet d k = Option.none) : dictDel d k = Option.none := by
  induction d with
  | nil => simp [dictDel]
  | cons hd tl ih =>
    obtain ⟨k', v'⟩ := hd
    by_cases hk : k' = k
    · subst hk; simp [dictGet] at h
    · simp [dictGet, hk] at h
      simp [dictDel, hk, ih h]

theorem dictGet_dictDel_ne {α : Type} (d : Dict α) (k k' : String)
    (hne : k' ≠ k) :
    ∀ d', dictDel d k = some d' → dictGet d' k' = dictGet d k' := by
  induction d with
  | nil => intro d' h; simp [dictDel] at h
  | cons hd tl ih =>
    intro d' h
    obtain ⟨k'', v''⟩ := hd
    by_cases hk : k'' = k
    · subst hk
      simp [dictDel] at h
      subst h
      have : k'' ≠ k' := Ne.symm hne
      simp [dictGet, this]
    · simp [dictDel, hk] at h
      obtain ⟨r, hr, hd'⟩ := h
      subst hd'
      by_cases hk' : k'' = k'
      · simp [dictGet, hk']
      · simp [dictGet, hk', ih r hr]

theorem mem_keys_dictSet {α : Type} (d : Dict α) (k a : String) (v : α) :
    a ∈ (dictSet d k v).map Prod.fst ↔ a ∈ d.map Prod.fst ∨ a = k := by
  induction d with
  | nil =>
    show a ∈ [k] ↔ _
    simp
  | cons hd tl ih =>
    obtain ⟨k', v'⟩ := hd
    by_cases hk : k' = k
    · subst hk
      simp only [dictSet, if_pos rfl, List.map_cons]
      constructor
      · exact Or.inl
      · rintro (h | h)
        · exact h
        · subst h; exact List.mem_cons_self _ _
    · simp only [dictSet, if_neg hk, List.map_cons]
      rw [List.mem_cons, List.mem_cons, ih, or_assoc]

theorem keys_nodup_dictSet {α : Type} (d : Dict α) (k : String) (v : α)
    (h : (d.map Prod.fst).Nodup) : ((dictSet d k v).map Prod.fst).Nodup := by
  induction d with
  | nil =>
    show ([k] : List String).Nodup
    simp
  | cons hd tl ih =>
    obtain ⟨k', v'⟩ := hd
    have h' : k' ∉ tl.map Prod.fst ∧ (tl.map Prod.fst).Nodup :=
      List.nodup_cons.mp h
    by_cases hk : k' = k
    · subst hk
      simp only [dictSet, if_pos rfl, List.map_cons]
      exact h
    · simp only [dictSet, if_neg hk, List.map_cons]
      refine List.nodup_cons.mpr ⟨?_, ih h'.2⟩
      intro hmem
      rcases (mem_keys_dictSet tl k k' v).mp hmem with h1 | h1
      · exact h'.1 h1
      · exact hk h1

theorem dictDel_keys_sublist {α : Type} (d : Dict α) (k : String) :
    ∀ d', dictDel d k = some d' →
      List.Sublist (d'.map Prod.fst) (d.map Prod.fst) := by
  induction d with
  | nil => intro d' h; simp [dictDel] at h
  | cons hd tl ih =>
    intro d' h
    obtain ⟨k', v'⟩ := hd
    by_cases hk : k' = k
    · subst hk
      simp [dictDel] at h
      subst h
      exact List.sublist_cons_self _ _
    · simp [dictDel, hk] at h
      obtain ⟨r, hr, hd'⟩ := h
      subst hd'
      exact (ih r hr).cons₂ k'

theorem keys_nodup_dictDel {α : Type} (d : Dict α) (k : String) (d' : Dict α)
    (hdel : dictDel d k = some d') (h : (d.map Prod.fst).Nodup) :
    (d'.map Prod.fst).Nodup :=
  (dictDel_keys_sublist d k d' hdel).nodup h

theorem mem_of_dictGet_eq_some {α : Type} (d : Dict α) (k : String) (v : α)
    (h : dictGet d k = some v) : (k, v) ∈ d := by
  induction d with
  | nil => simp [dictGet] at h
  | cons hd tl ih =>
    obtain ⟨k', v'⟩ := hd
    by_cases hk : k' = k
    · subst hk
      simp [dictGet] at h
      subst h
      exact List.mem_cons_self _ _
    · simp [dictGet, hk] at h
      exact List.mem_cons_of_mem _ (ih h)

theorem dictGet_eq_some_of_mem {α : Type} (d : Dict α) (k : String) (v : α) :
    (k, v) ∈ d → (d.map Prod.fst).Nodup → dictGet d k = some v := by
  induction d with
  | nil => intro hmem _; exact absurd hmem (List.not_mem_nil _)
  | cons hd tl ih =>
    intro hmem hn
    obtain ⟨k', v'⟩ := hd
    have hn' : k' ∉ tl.map Prod.fst ∧ (tl.map Prod.fst).Nodup :=
      List.nodup_cons.mp hn
    rcases List.mem_cons.mp hmem with h1 | h1
    · injection h1 with h2 h3
      subst h2; subst h3
      simp [dictGet]
    · have hkk : k' ≠ k := by
        intro he
        subst he
        exact hn'.1 (List.mem_map.mpr ⟨(k', v), h1, rfl⟩)
      simp [dictGet, hkk]
      exact ih h1 hn'.2

theorem dictGet_eq_none_iff {α : Type} (d : Dict α) (k : String) :
    dictGet d k = Option.none ↔ k ∉ d.map Prod.fst := by
  induction d with
  | nil => simp [dictGet]
  | cons hd tl ih =>
    obtain ⟨k', v'⟩ := hd
    by_cases hk : k' = k
    · subst hk; simp [dictGet]
    · simp [dictGet, hk, ih, Ne.symm hk]

theorem dictGet_congr_perm {α : Type} (d1 d2 : Dict α) (hp : d1.Perm d2)
    (hn : (d1.map Prod.fst).Nodup) (k : String) :
    dictGet d1 k = dictGet d2 k := by
  have hn2 : (d2.map Prod.fst).Nodup := ((hp.map Prod.fst).nodup_iff).mp hn
  cases hg : dictGet d1 k with
  | none =>
    rw [dictGet_eq_none_iff] at hg
    have : k ∉ d2.map Prod.fst := fun hmem => hg ((hp.map Prod.fst).mem_iff.mpr hmem)
    exact ((dictGet_eq_none_iff d2 k).mpr this).symm
  | some v =>
    have hmem := mem_of_dictGet_eq_some d1 k v hg
    exact (dictGet_eq_some_of_mem d2 k v (hp.mem_iff.mp hmem) hn2).symm

theorem insertSorted_perm {α : Type} (p : String × α) (d : Dict α) :
    (insertSorted p d).Perm (p :: d) := by
  induction d with
  | nil => simp [insertSorted]
  | cons q rest ih =>
    cases h : strLe p.1 q.1 with
    | true => simp [insertSorted, h]
    | false =>
      simp only [insertSorted, h, Bool.false_eq_true, if_false]
      exact (ih.cons q).trans (List.Perm.swap p q rest)

theorem sortDict_perm {α : Type} (d : Dict α) : (sortDict d).Perm d := by
  induction d with
  | nil => simp [sortDict]
  | cons q rest ih =>
    have : sortDict (q :: rest) = insertSorted q (sortDict rest) := rfl
    rw [this]
    exact (insertSorted_perm q (sortDict rest)).trans (ih.cons q)

/-! ## Store and resolution-loop lemmas -/

theorem storeSetHidden_nameAt (s : Store) (r i : Nat) :
    nameAt (storeSetHidden s r) i = nameAt s i := by
  induction s generalizing r i with
  | nil => cases r <;> rfl
  | cons p rest ih =>
    cases r with
    | zero => cases i <;> rfl
    | succ n =>
      cases i with
      | zero => rfl
      | succ j =>
        show nameAt (storeSetHidden rest n) j = nameAt rest j
        exact ih n j

theorem storeSetHidden_defaultAt (s : Store) (r i : Nat) :
    defaultAt (storeSetHidden s r) i = defaultAt s i := by
  induction s generalizing r i with
  | nil => cases r <;> rfl
  | cons p rest ih =>
    cases r with
    | zero => cases i <;> rfl
    | succ n =>
      cases i with
      | zero => rfl
      | succ j =>
        show defaultAt (storeSetHidden rest n) j = defaultAt rest j
        exact ih n j

theorem gpLoop_store_invariant (items : List DeclItem) :
    ∀ store dep acc res st,
      gpLoop store items false dep acc = .ok (res, st) → st = store := by
  induction items with
  | nil =>
    intro store dep acc res st h
    simp [gpLoop] at h
    exact h.2.symm
  | cons it rest ih =>
    intro store dep acc res st h
    cases it with
    | hide nm =>
      simp only [gpLoop, Bool.false_eq_true, if_false] at h
      cases hdel : dictDel acc nm with
      | none => rw [hdel] at h; exact absurd h (by simp)
      | some acc' =>
        rw [hdel] at h
        exact ih store dep acc' res st h
    | param r =>
      simp only [gpLoop] at h
      by_cases hd : (dep || !(store.getD r dummyParam).deprecated) = true
      · rw [if_pos hd] at h
        exact ih store dep _ res st h
      · rw [if_neg hd] at h
        exact ih store dep acc res st h

theorem gpLoop_nameAt (items : List DeclItem) :
    ∀ store ih dep acc res st,
      gpLoop store items ih dep acc = .ok (res, st) →
      ∀ i, nameAt st i = nameAt store i := by
  induction items with
  | nil =>
    intro store ihb dep acc res st h i
    simp [gpLoop] at h
    rw [h.2]
  | cons it rest ihrec =>
    intro store ihb dep acc res st h i
    cases it with
    | hide nm =>
      cases ihb with
      | true =>
        simp only [gpLoop, if_pos rfl] at h
        cases hg : dictGet acc nm with
        | none => rw [hg] at h; exact absurd h (by simp)
        | some r =>
          rw [hg] at h
          rw [ihrec _ true dep acc res st h i, storeSetHidden_nameAt]
      | false =>
        simp only [gpLoop, Bool.false_eq_true, if_false] at h
        cases hdel : dictDel acc nm with
        | none => rw [hdel] at h; exact absurd h (by simp)
        | some acc' =>
          rw [hdel] at h
          exact ihrec _ false dep acc' res st h i
    | param r =>
      simp only [gpLoop] at h
      by_cases hd : (dep || !(store.getD r dummyParam).deprecated) = true
      · rw [if_pos hd] at h
        exact ihrec _ ihb dep _ res st h i
      · rw [if_neg hd] at h
        exact ihrec _ ihb dep acc res st h i

theorem gpLoop_defaultAt (items : List DeclItem) :
    ∀ store ih dep acc res st,
      gpLoop store items ih dep acc = .ok (res, st) →
      ∀ i, defaultAt st i = defaultAt store i := by
  induction items with
  | nil =>
    intro store ihb dep acc res st h i
    simp [gpLoop] at h
    rw [h.2]
  | cons it rest ihrec =>
    intro store ihb dep acc res st h i
    cases it with
    | hide nm =>
      cases ihb with
      | true =>
        simp only [gpLoop, if_pos rfl] at h
        cases hg : dictGet acc nm with
        | none => rw [hg] at h; exact absurd h (by simp)
        | some r =>
          rw [hg] at h
          rw [ihrec _ true dep acc res st h i, storeSetHidden_defaultAt]
      | false =>
        simp only [gpLoop, Bool.false_eq_true, if_false] at h
        cases hdel : dictDel acc nm with
        | none => rw [hdel] at h; exact absurd h (by simp)
        | some acc' =>
          rw [hdel] at h
          exact ihrec _ false dep acc' res st h i
    | param r =>
      simp only [gpLoop] at h
      by_cases hd : (dep || !(store.getD r dummyParam).deprecated) = true
      · rw [if_pos hd] at h
        exact ihrec _ ihb dep _ res st h i
      · rw [if_neg hd] at h
        exact ihrec _ ihb dep acc res st h i

theorem gpLoop_keys_nodup (items : List DeclItem) :
    ∀ store ih dep acc res st,
      (acc.map Prod.fst).Nodup →
      gpLoop store items ih dep acc = .ok (res, st) →
      (res.map Prod.fst).Nodup := by
  induction items with
  | nil =>
    intro store ihb dep acc res st hn h
    simp [gpLoop] at h
    rw [← h.1]
    exact hn
  | cons it rest ihrec =>
    intro store ihb dep acc res st hn h
    cases it with
    | hide nm =>
      cases ihb with
      | true =>
        simp only [gpLoop, if_pos rfl] at h
        cases hg : dictGet acc nm with
        | none => rw [hg] at h; exact absurd h (by simp)
        | some r =>
          rw [hg] at h
          exact ihrec _ true dep acc res st hn h
      | false =>
        simp only [gpLoop, Bool.false_eq_true, if_false] at h
        cases hdel : dictDel acc nm with
        | none => rw [hdel] at h; exact absurd h (by simp)
        | some acc' =>
          rw [hdel] at h
          exact ihrec _ false dep acc' res st
            (keys_nodup_dictDel acc nm acc' hdel hn) h
    | param r =>
      simp only [gpLoop] at h
      by_cases hd : (dep || !(store.getD r dummyParam).deprecated) = true
      · rw [if_pos hd] at h
        exact ihrec _ ihb dep _ res st
          (keys_nodup_dictSet acc (store.getD r dummyParam).name r hn) h
      · rw [if_neg hd] at h
        exact ihrec _ ihb dep acc res st hn h

theorem itemMentions_storeSetHidden (store : Store) (r : Nat) (x : String)
    (it : DeclItem) :
    itemMentions (storeSetHidden store r) x it = itemMentions store x it := by
  cases it with
  | hide nm => rfl
  | param q => simp [itemMentions, storeSetHidden_nameAt]

theorem gpLoop_dictGet_frame (x : String) (items : List DeclItem) :
    ∀ store ih dep acc res st,
      (∀ it ∈ items, itemMentions store x it = false) →
      gpLoop store items ih dep acc = .ok (res, st) →
      dictGet res x = dictGet acc x := by
  induction items with
  | nil =>
    intro store ihb dep acc res st _ h
    simp [gpLoop] at h
    rw [h.1]
  | cons it rest ihrec =>
    intro store ihb dep acc res st hm h
    have hmhd := hm it (List.mem_cons_self _ _)
    have hmtl : ∀ it' ∈ rest, itemMentions store x it' = false :=
      fun it' hmem => hm it' (List.mem_cons_of_mem _ hmem)
    cases it with
    | hide nm =>
      have hnmx : nm ≠ x := by
        simpa [itemMentions] using hmhd
      cases ihb with
      | true =>
        simp only [gpLoop, if_pos rfl] at h
        cases hg : dictGet acc nm with
        | none => rw [hg] at h; exact absurd h (by simp)
        | some r =>
          rw [hg] at h
          have hmtl' : ∀ it' ∈ rest, itemMentions (storeSetHidden store r) x it' = false :=
            fun it' hmem => (itemMentions_storeSetHidden store r x it').trans (hmtl it' hmem)
          exact ihrec _ true dep acc res st hmtl' h
      | false =>
        simp only [gpLoop, Bool.false_eq_true, if_false] at h
        cases hdel : dictDel acc nm with
        | none => rw [hdel] at h; exact absurd h (by simp)
        | some acc' =>
          rw [hdel] at h
          rw [ihrec _ false dep acc' res st hmtl h]
          exact dictGet_dictDel_ne acc nm x (Ne.symm hnmx) acc' hdel
    | param r =>
      have hnx : (store.getD r dummyParam).name ≠ x := by
        simpa [itemMentions, nameAt] using hmhd
      simp only [gpLoop] at h
      by_cases hd : (dep || !(store.getD r dummyParam).deprecated) = true
      · rw [if_pos hd] at h
        rw [ihrec _ ihb dep _ res st hmtl h]
        exact dictGet_dictSet_ne acc (store.getD r dummyParam).name x r
          (fun he => hnx he.symm)
      · rw [if_neg hd] at h
        exact ihrec _ ihb dep acc res st hmtl h

theorem get_parameters_store_invariant (store : Store) (chain : Chain)
    (dep s : Bool) (res : Dict Nat) (st : Store)
    (h : get_parameters store chain false dep s = .ok (res, st)) : st = store := by
  unfold get_parameters at h
  cases hl : gpLoop store (chainItems chain) false dep [] with
  | error e => rw [hl] at h; exact absurd h (by simp)
  | ok pr =>
    obtain ⟨acc, st'⟩ := pr
    rw [hl] at h
    simp at h
    rw [← h.2]
    exact gpLoop_store_invariant (chainItems chain) store dep [] acc st' hl

/-! ## Registry-query lemmas -/

theorem gapLoop_frame (k : String) (entries : Registry) :
    ∀ store acc res st,
      k ∉ entries.map Prod.fst →
      gapLoop store entries Option.none acc = .ok (res, st) →
      dictGet res k = dictGet acc k := by
  induction entries with
  | nil =>
    intro store acc res st _ h
    simp [gapLoop] at h
    rw [h.1]
  | cons e rest ih =>
    intro store acc res st hk h
    obtain ⟨nm, ch⟩ := e
    have hknm : k ≠ nm := by
      intro he; subst he
      exact hk (List.mem_cons_self _ _)
    have hkrest : k ∉ rest.map Prod.fst :=
      fun hmem => hk (List.mem_cons_of_mem _ hmem)
    simp only [gapLoop, if_pos] at h
    cases hg : get_parameters store ch false false true with
    | error e' => rw [hg] at h; exact absurd h (by simp)
    | ok pr =>
      obtain ⟨r, st'⟩ := pr
      rw [hg] at h
      rw [ih st' _ res st hkrest h]
      exact dictGet_dictSet_ne acc nm k _ hknm

theorem gapLoop_none_mem (entries : Registry) :
    ∀ store acc res st nm ch,
      (entries.map Prod.fst).Nodup →
      (nm, ch) ∈ entries →
      gapLoop store entries Option.none acc = .ok (res, st) →
      ∃ pr, get_parameters store ch false false true = .ok (pr, store) ∧
        dictGet res nm = some (QueryResult.names (pr.map Prod.fst)) := by
  induction entries with
  | nil =>
    intro store acc res st nm ch _ hmem _
    exact absurd hmem (List.not_mem_nil _)
  | cons e rest ih =>
    intro store acc res st nm ch hnd hmem h
    obtain ⟨nm', ch'⟩ := e
    have hnd' : nm' ∉ rest.map Prod.fst ∧ (rest.map Prod.fst).Nodup :=
      List.nodup_cons.mp hnd
    simp only [gapLoop, if_pos] at h
    cases hg : get_parameters store ch' false false true with
    | error e' => rw [hg] at h; exact absurd h (by simp)
    | ok pr =>
      obtain ⟨r, st'⟩ := pr
      have hst' : st' = store :=
        get_parameters_store_invariant store ch' false true r st' hg
      rw [hg] at h
      rw [hst'] at h hg
      rcases List.mem_cons.mp hmem with h1 | h1
      · injection h1 with h2 h3
        subst h2; subst h3
        refine ⟨r, hg, ?_⟩
        rw [gapLoop_frame nm rest store _ res st hnd'.1 h]
        exact dictGet_dictSet_self acc nm _
      · exact ih store _ res st nm ch hnd'.2 h1 h

/-! ## Override-binding lemmas -/

theorem dictPop_absent (d : Dict Value) (k : String)
    (h : dictGet d k = Option.none) : dictPop d k = (Value.none, d) := by
  induction d with
  | nil => rfl
  | cons hd tl ih =>
    obtain ⟨k', v'⟩ := hd
    by_cases hk : k' = k
    · subst hk; simp [dictGet] at h
    · simp [dictGet, hk] at h
      simp [dictPop, hk, ih h]

theorem dictPop_append_ne (d : Dict Value) (k nm : String) (w : Value)
    (h : k ≠ nm) :
    dictPop (d ++ [(nm, w)]) k = ((dictPop d k).1, (dictPop d k).2 ++ [(nm, w)]) := by
  induction d with
  | nil => simp [dictPop, Ne.symm h]
  | cons hd tl ih =>
    obtain ⟨k', v'⟩ := hd
    by_cases hk : k' = k
    · subst hk; simp [dictPop]
    · simp [dictPop, hk, ih]

theorem dictPop_preserves_absent (d : Dict Value) (k nm : String)
    (h : dictGet d nm = Option.none) :
    dictGet (dictPop d k).2 nm = Option.none := by
  induction d with
  | nil => simpa [dictPop] using h
  | cons hd tl ih =>
    obtain ⟨k', v'⟩ := hd
    by_cases hnm : k' = nm
    · subst hnm; simp [dictGet] at h
    · simp [dictGet, hnm] at h
      by_cases hk : k' = k
      · subst hk; simpa [dictPop] using h
      · simp [dictPop, hk, dictGet, hnm]
        exact ih h

theorem dictSet_append_absent {α : Type} (d : Dict α) (k : String) (v : α)
    (h : dictGet d k = Option.none) : dictSet d k v = d ++ [(k, v)] := by
  induction d with
  | nil => rfl
  | cons hd tl ih =>
    obtain ⟨k', v'⟩ := hd
    by_cases hk : k' = k
    · subst hk; simp [dictGet] at h
    · simp [dictGet, hk] at h
      simp [dictSet, hk, ih h]

theorem dictPop_append_self (d : Dict Value) (nm : String) (w : Value)
    (h : dictGet d nm = Option.none) : dictPop (d ++ [(nm, w)]) nm = (w, d) := by
  induction d with
  | nil => simp [dictPop]
  | cons hd tl ih =>
    obtain ⟨k', v'⟩ := hd
    by_cases hk : k' = nm
    · subst hk; simp [dictGet] at h
    · simp [dictGet, hk] at h
      simp [dictPop, hk, ih h]

theorem ppLoop_extra_none (store : Store) (nm : String) (objs : Dict Nat) :
    ∀ ah params res,
      dictGet params nm = Option.none →
      (∃ r, dictGet objs nm = some r ∧
        (ah = true ∨ (store.getD r dummyParam).hidden = false)) →
      ppLoop store objs ah (params ++ [(nm, Value.none)]) res
        = ppLoop store objs ah params res := by
  induction objs with
  | nil =>
    intro ah params res _ hex
    obtain ⟨r, hr, _⟩ := hex
    simp [dictGet] at hr
  | cons ob rest ih =>
    intro ah params res habs hex
    obtain ⟨name, r'⟩ := ob
    obtain ⟨r, hr, hnh⟩ := hex
    by_cases hname : name = nm
    · subst hname
      have hr' : r' = r := by
        have : some r' = some r := by simpa [dictGet] using hr
        exact Option.some.inj this
      subst hr'
      have hskip : (!ah && (store.getD r' dummyParam).hidden) = false := by
        rcases hnh with h1 | h1
        · rw [h1]; rfl
        · rw [h1, Bool.and_false]
      simp only [ppLoop, hskip, Bool.false_eq_true, if_false]
      rw [dictPop_append_self params name Value.none habs,
        dictPop_absent params name habs]
    · have hrtl : dictGet rest nm = some r := by
        simpa [dictGet, hname] using hr
      have habs' : dictGet params name = Option.none →
          dictGet (dictPop params name).2 nm = Option.none :=
        fun _ => dictPop_preserves_absent params name nm habs
      by_cases hskip : (!ah && (store.getD r' dummyParam).hidden) = true
      · simp only [ppLoop, hskip, if_pos rfl]
        exact ih ah params res habs ⟨r, hrtl, hnh⟩
      · simp only [ppLoop, hskip, if_false]
        rw [dictPop_append_ne params name nm Value.none hname]
        cases hcv : (store.getD r' dummyParam).convert (dictPop params name).1 with
        | error e => rfl
        | ok cv =>
          exact ih ah (dictPop params name).2 (dictSet res name cv)
            (dictPop_preserves_absent params name nm habs) ⟨r, hrtl, hnh⟩


/-! ## Claims -/

/-- C1 counterexample: contrary to the claim, constructing `Derived` with
the override `{'label': 'y'}` under the default construction flags does
not fail with an unknown-parameter error: `__init__` parses with
`allow_hidden=True`, so the hidden `label` is settable and the
construction succeeds with `label='y'`, `size=20` (and `Base`'s `label`
descriptor marked hidden as a side effect) -/
theorem c1_counterexample :
    init_parameters scenarioStore scenarioDerivedChain "Derived"
      [("label", Value.str "y")]
      = .ok ([("label", Value.str "y"), ("size", Value.int 20)],
             scenarioStoreHidden) := rfl

/-- C1 amended: `Derived.list_parameters()` under default flags contains
only `size`; `Derived.new({'size': 5})` resolves `size` to `5` and the
non-listed hidden `label` to its default `'x'`; and
`Derived.new({'label': 'y'})` succeeds (hidden parameters are settable
under the default `allow_hidden=True`), yielding `label='y'`,
`size=20` -/
theorem c1_amended :
    get_parameters scenarioStore scenarioDerivedChain false false true
      = .ok ([("size", 2)], scenarioStore) ∧
    init_parameters scenarioStore scenarioDerivedChain "Derived"
      [("size", Value.int 5)]
      = .ok ([("label", Value.str "x"), ("size", Value.int 5)],
             scenarioStoreHidden) ∧
    init_parameters scenarioStore scenarioDerivedChain "Derived"
      [("label", Value.str "y")]
      = .ok ([("label", Value.str "y"), ("size", Value.int 20)],
             scenarioStoreHidden) :=
  ⟨rfl, rfl, rfl⟩

/-- C2 counterexample: contrary to the claim, querying the registry with
the mode string `'names'` does not succeed: only `None` selects the
name-set mode, and `'names'` falls through to the unrecognized-mode
error -/
theorem c2_counterexample :
    get_all_parameters scenarioStore
      [("Base", scenarioBaseChain), ("Derived", scenarioDerivedChain)]
      (some "names")
      = .error (.badModeError "names") := rfl

/-- C2 amended: for every class registered under a registry with distinct
names, querying with the default mode `None` (the mode the spec calls
`names`) returns, under that class's name, exactly the key list of the
class's default parameter listing, whenever the whole query succeeds;
and any mode string other than `'value'` and `'description'` (including
`'names'`) fails with a descriptive error on a nonempty registry -/
theorem c2_amended :
    (∀ (store : Store) (registry : Registry) (nm : String) (ch : Chain)
        (res : Dict QueryResult) (st : Store),
      (registry.map Prod.fst).Nodup →
      (nm, ch) ∈ registry →
      get_all_parameters store registry Option.none = .ok (res, st) →
      ∃ pr, get_parameters store ch false false true = .ok (pr, store) ∧
        dictGet res nm = some (QueryResult.names (pr.map Prod.fst))) ∧
    (∀ (store : Store) (nm : String) (ch : Chain) (rest : Registry)
        (d : String),
      d ≠ "value" → d ≠ "description" →
      get_all_parameters store ((nm, ch) :: rest) (some d)
        = .error (.badModeError d)) := by
  constructor
  · intro store registry nm ch res st hnd hmem h
    exact gapLoop_none_mem registry store [] res st nm ch hnd hmem h
  · intro store nm ch rest d h1 h2
    show gapLoop store ((nm, ch) :: rest) (some d) [] = .error (.badModeError d)
    simp only [gapLoop]
    rw [if_neg (by simp), if_neg (by simp [h1]), if_neg (by simp [h2])]
    rfl

/-- C2 amended witness: instantiation at the concrete two-class registry
of the scenario -/
theorem c2_witness :
    ∃ pr, get_parameters scenarioStore scenarioDerivedChain false false true
        = .ok (pr, scenarioStore) ∧
      dictGet [("Base", QueryResult.names ["label", "size"]),
               ("Derived", QueryResult.names ["size"])] "Derived"
        = some (QueryResult.names (pr.map Prod.fst)) :=
  (c2_amended).1 scenarioStore
    [("Base", scenarioBaseChain), ("Derived", scenarioDerivedChain)]
    "Derived" scenarioDerivedChain
    [("Base", QueryResult.names ["label", "size"]),
     ("Derived", QueryResult.names ["size"])]
    scenarioStore (by decide)
    (List.mem_cons_of_mem _ (List.mem_cons_self _ _)) rfl

/-- C3: merging runs general-to-specific, so with A declaring `x = 1`, B
redeclaring `x = 2` and a most-specific class whose declaration list
never mentions `x`, any successful resolution maps `x` to B's
descriptor (id 1), whose default in the returned store is still `2` -/
theorem c3 (srest : Store) (lc : List DeclItem) (ihid dep s : Bool)
    (r : Dict Nat) (st : Store)
    (hlc : ∀ it ∈ lc, itemMentions (c3ParamA :: c3ParamB :: srest) "x" it = false)
    (h : get_parameters (c3ParamA :: c3ParamB :: srest)
      [[DeclItem.param 0], [DeclItem.param 1], lc] ihid dep s = .ok (r, st)) :
    dictGet r "x" = some 1 ∧ defaultAt st 1 = Value.int 2 := by
  have hchain : chainItems [[DeclItem.param 0], [DeclItem.param 1], lc]
      = DeclItem.param 0 :: DeclItem.param 1 :: lc := by
    simp [chainItems]
  unfold get_parameters at h
  rw [hchain] at h
  have hstep : gpLoop (c3ParamA :: c3ParamB :: srest)
      (DeclItem.param 0 :: DeclItem.param 1 :: lc) ihid dep []
      = gpLoop (c3ParamA :: c3ParamB :: srest) lc ihid dep [("x", 1)] := by
    simp [gpLoop, dictSet, c3ParamA, c3ParamB, dictGet]
  rw [hstep] at h
  cases hl : gpLoop (c3ParamA :: c3ParamB :: srest) lc ihid dep [("x", 1)] with
  | error e => rw [hl] at h; exact absurd h (by simp)
  | ok pr =>
    obtain ⟨raw, st'⟩ := pr
    rw [hl] at h
    injection h with h'
    injection h' with h1 h2
    have hraw : dictGet raw "x" = some 1 := by
      rw [gpLoop_dictGet_frame "x" lc (c3ParamA :: c3ParamB :: srest)
        ihid dep [("x", 1)] raw st' hlc hl]
      rfl
    have hnd : (raw.map Prod.fst).Nodup :=
      gpLoop_keys_nodup lc (c3ParamA :: c3ParamB :: srest) ihid dep
        [("x", 1)] raw st' (by simp) hl
    have hnds : ((sortDict raw).map Prod.fst).Nodup :=
      (((sortDict_perm raw).map Prod.fst).nodup_iff).mpr hnd
    constructor
    · rw [← h1]
      cases s with
      | false => exact hraw
      | true =>
        show dictGet (sortDict raw) "x" = some 1
        rw [dictGet_congr_perm (sortDict raw) raw (sortDict_perm raw) hnds "x"]
        exact hraw
    · rw [← h2]
      rw [gpLoop_defaultAt lc (c3ParamA :: c3ParamB :: srest) ihid dep
        [("x", 1)] raw st' hl 1]
      rfl

/-- C3 witness: the minimal three-class chain with an empty most-specific
declaration list -/
theorem c3_witness :
    dictGet [("x", 1)] "x" = some 1 ∧
    defaultAt [c3ParamA, c3ParamB] 1 = Value.int 2 :=
  c3 [] [] false false true [("x", 1)] [c3ParamA, c3ParamB]
    (fun _ hit => absurd hit (List.not_mem_nil _)) rfl

/-- C4 counterexample: contrary to the claim, resolution is not
side-effect free: resolving `Derived` with `include_hidden=True` flips
the hidden flag of `Base`'s `label` descriptor in place, so `Base`'s own
resolution observably differs before and after -/
theorem c4_counterexample :
    get_parameters scenarioStore scenarioDerivedChain true false true
      = .ok ([("label", 1), ("size", 2)], scenarioStoreHidden) ∧
    scenarioStoreHidden ≠ scenarioStore ∧
    get_parameters scenarioStore scenarioBaseChain false false true
      = .ok ([("label", 1), ("size", 0)], scenarioStore) ∧
    get_parameters scenarioStoreHidden scenarioBaseChain false false true
      = .ok ([("label", 1), ("size", 0)], scenarioStoreHidden) ∧
    materialize scenarioStore [("label", 1), ("size", 0)]
      ≠ materialize scenarioStoreHidden [("label", 1), ("size", 0)] :=
  ⟨rfl, by decide, rfl, rfl, by decide⟩

/-- C4 amended: resolution with `include_hidden=False` is side-effect
free — the store comes back unchanged, for any flags and any chain
(with `include_hidden=True` the hidden-flag mutation of the
counterexample can occur) -/
theorem c4_amended (store : Store) (chain : Chain) (dep s : Bool)
    (r : Dict Nat) (st : Store)
    (h : get_parameters store chain false dep s = .ok (r, st)) : st = store :=
  get_parameters_store_invariant store chain dep s r st h

/-- C4 amended witness: resolving `Base` with default flags returns the
store unchanged -/
theorem c4_witness : scenarioStore = scenarioStore :=
  c4_amended scenarioStore scenarioBaseChain false true
    [("label", 1), ("size", 0)] scenarioStore rfl

/-- C5 counterexample: contrary to the claim, not every conversion
failure is wrapped in the descriptive error: the source catches only
`ValueError`, so `int([])` escapes as a raw `TypeError` carrying neither
the parameter name, nor the value, nor the target type -/
theorem c5_counterexample :
    Parameter.convert ⟨"p", Value.int 0, PyType.int, "", false, false⟩
      (Value.list [])
      = .error PyErr.builtinTypeError := rfl

/-- C5 amended: for a typed descriptor, a converter failure that raises
`ValueError` is re-raised as the descriptive error naming the parameter,
the attempted value and the target type, while a `TypeError` propagates
raw; in both cases the failure surfaces (a successful `convert` means
the converter itself succeeded on the attempted value, never a silent
fallback to the default), and the untyped sentinel returns the value
(or, for `None`, the default) unchanged -/
theorem c5_amended (p : Parameter) (v : Value) :
    (p.cls = PyType.object →
      p.convert v = .ok (if v = Value.none then p.default_value else v)) ∧
    (p.cls ≠ PyType.object →
      pyCall p.cls (if v = Value.none then p.default_value else v)
        = ConvResult.valueErr →
      p.convert v = .error (.conversionError p.name
        (if v = Value.none then p.default_value else v) p.cls)) ∧
    (p.cls ≠ PyType.object →
      pyCall p.cls (if v = Value.none then p.default_value else v)
        = ConvResult.typeErr →
      p.convert v = .error PyErr.builtinTypeError) ∧
    (∀ w, p.convert v = .ok w → p.cls ≠ PyType.object →
      pyCall p.cls (if v = Value.none then p.default_value else v)
        = ConvResult.ok w) := by
  refine ⟨?_, ?_, ?_, ?_⟩
  · intro hobj
    simp [Parameter.convert, hobj]
  · intro hobj hvc
    simp [Parameter.convert, hobj, hvc]
  · intro hobj hvc
    simp [Parameter.convert, hobj, hvc]
  · intro w hok hobj
    unfold Parameter.convert at hok
    rw [if_neg hobj] at hok
    cases hpc : pyCall p.cls (if v = Value.none then p.default_value else v) with
    | ok u =>
      rw [hpc] at hok
      simp at hok
      rw [hok]
    | valueErr => rw [hpc] at hok; exact absurd hok (by simp)
    | typeErr => rw [hpc] at hok; exact absurd hok (by simp)

/-- C5 amended witness: the descriptive wrapping at a concrete
`ValueError`, `int('abc')` -/
theorem c5_witness :
    Parameter.convert ⟨"p", Value.int 0, PyType.int, "", false, false⟩
      (Value.str "abc")
      = .error (.conversionError "p" (Value.str "abc") PyType.int) :=
  (c5_amended ⟨"p", Value.int 0, PyType.int, "", false, false⟩
    (Value.str "abc")).2.1 (by decide) (by decide)

/-- C6 counterexample: contrary to the claim, descriptor construction
does not always complete: `Parameter('p', 'hello', int)` evaluates
`int('hello')` with no handler, so the `ValueError` escapes the
constructor -/
theorem c6_counterexample :
    Parameter.make "p" (Value.str "hello") PyType.int "" false
      = .error PyErr.builtinValueError := rfl

/-- C6 amended: construction completes exactly when the type slot is the
untyped sentinel or the converter succeeds on the default (a raising
converter escapes the constructor); the non-fatal warning is emitted
exactly when the converter succeeds with a result unequal to the
default; and a completed construction stores the arguments verbatim -/
theorem c6_amended (name : String) (dv : Value) (cls : PyType)
    (desc : String) (hid : Bool) :
    ((∃ res, Parameter.make name dv cls desc hid = .ok res) ↔
      (cls = PyType.object ∨ ∃ v, pyCall cls dv = ConvResult.ok v)) ∧
    ((∃ p, Parameter.make name dv cls desc hid = .ok (p, true)) ↔
      (cls ≠ PyType.object ∧ ∃ v, pyCall cls dv = ConvResult.ok v ∧ v ≠ dv)) ∧
    (∀ p warned, Parameter.make name dv cls desc hid = .ok (p, warned) →
      p = ⟨name, dv, cls, desc, hid, false⟩) := by
  by_cases hobj : cls = PyType.object
  · subst hobj
    refine ⟨?_, ?_, ?_⟩
    · simp [Parameter.make]
    · constructor
      · rintro ⟨p, hp⟩
        simp [Parameter.make] at hp
      · rintro ⟨hne, _⟩
        exact absurd rfl hne
    · intro p warned hp
      simp [Parameter.make] at hp
      exact hp.1.symm
  · cases hpc : pyCall cls dv with
    | ok u =>
      refine ⟨?_, ?_, ?_⟩
      · simp only [Parameter.make, if_neg hobj, hpc]
        exact ⟨fun _ => Or.inr ⟨u, rfl⟩, fun _ => ⟨_, rfl⟩⟩
      · simp only [Parameter.make, if_neg hobj, hpc]
        constructor
        · rintro ⟨p, hp⟩
          have hw : decide (u ≠ dv) = true := by
            have h2 := congrArg (fun x =>
              match x with
              | Except.ok (q : Parameter × Bool) => q.2
              | Except.error _ => false) hp
            simpa using h2.symm
          exact ⟨hobj, u, rfl, of_decide_eq_true hw⟩
        · rintro ⟨_, v, hv, hvd⟩
          injection hv with hv'
          subst hv'
          exact ⟨_, by rw [decide_eq_true hvd]⟩
      · intro p warned hp
        simp only [Parameter.make, if_neg hobj, hpc] at hp
        have h2 := congrArg (fun x =>
          match x with
          | Except.ok (q : Parameter × Bool) => q.1
          | Except.error _ => dummyParam) hp
        simpa using h2.symm
    | valueErr =>
      refine ⟨?_, ?_, ?_⟩
      · simp only [Parameter.make, if_neg hobj, hpc]
        constructor
        · rintro ⟨res, hres⟩
          exact absurd hres (by simp)
        · rintro (h | ⟨v, hv⟩)
          · exact absurd h hobj
          · exact absurd hv (by simp)
      · simp only [Parameter.make, if_neg hobj, hpc]
        constructor
        · rintro ⟨p, hp⟩
          exact absurd hp (by simp)
        · rintro ⟨_, v, hv, _⟩
          exact absurd hv (by simp)
      · intro p warned hp
        simp only [Parameter.make, if_neg hobj, hpc] at hp
        exact Except.noConfusion hp
    | typeErr =>
      refine ⟨?_, ?_, ?_⟩
      · simp only [Parameter.make, if_neg hobj, hpc]
        constructor
        · rintro ⟨res, hres⟩
          exact absurd hres (by simp)
        · rintro (h | ⟨v, hv⟩)
          · exact absurd h hobj
          · exact absurd hv (by simp)
      · simp only [Parameter.make, if_neg hobj, hpc]
        constructor
        · rintro ⟨p, hp⟩
          exact absurd hp (by simp)
        · rintro ⟨_, v, hv, _⟩
          exact absurd hv (by simp)
      · intro p warned hp
        simp only [Parameter.make, if_neg hobj, hpc] at hp
        exact Except.noConfusion hp

/-- C6 amended witness: `Parameter('p', 5, str)` completes with the
warning (since `str(5) = '5' ≠ 5`) and stores its arguments verbatim -/
theorem c6_witness :
    (⟨"p", Value.int 5, PyType.str, "", false, false⟩ : Parameter)
      = ⟨"p", Value.int 5, PyType.str, "", false, false⟩ :=
  (c6_amended "p" (Value.int 5) PyType.str "" false).2.2
    ⟨"p", Value.int 5, PyType.str, "", false, false⟩ true rfl

/-- C7: for any default, type, description and deprecation flag of the
ancestor-declared parameter `y`, hiding `y` in the descendant removes it
under default flags, while `include_hidden=True` keeps it and flips its
descriptor's hidden flag to true (a hide directive itself never appears
as an entry: entries are descriptor references by construction) -/
theorem c7 (d : Value) (c : PyType) (desc : String) (dep : Bool) :
    get_parameters [⟨"y", d, c, desc, false, false⟩]
      [[DeclItem.param 0], [DeclItem.hide "y"]] false dep true
      = .ok ([], [⟨"y", d, c, desc, false, false⟩]) ∧
    get_parameters [⟨"y", d, c, desc, false, false⟩]
      [[DeclItem.param 0], [DeclItem.hide "y"]] true dep true
      = .ok ([("y", 0)], [⟨"y", d, c, desc, true, false⟩]) ∧
    materialize [⟨"y", d, c, desc, true, false⟩] [("y", 0)]
      = [("y", ⟨"y", d, c, desc, true, false⟩)] := by
  cases dep <;> exact ⟨rfl, rfl, rfl⟩

/-- C8: processing a hide directive whose name is not bound in the
accumulated mapping raises `KeyError` in both branches — the mark-hidden
branch (hidden included) and the delete branch (hidden excluded) -/
theorem c8 (store : Store) (acc : Dict Nat) (rest : List DeclItem)
    (nm : String) (ihid dep : Bool)
    (h : dictGet acc nm = Option.none) :
    gpLoop store (DeclItem.hide nm :: rest) ihid dep acc
      = .error (.keyError nm) := by
  cases ihid with
  | true => simp [gpLoop, h]
  | false => simp [gpLoop, dictDel_eq_none acc nm h]

/-- C8 witness: hiding `q` when nothing was ever declared -/
theorem c8_witness :
    gpLoop [] [DeclItem.hide "q"] true false [] = .error (.keyError "q") :=
  c8 [] [] [] "q" true false rfl

/-- C9: a deprecated descriptor `z` is absent from the resolved listing
with `include_deprecated=False` and present with `True`; binding with
validity checking on rejects an override for `z` as unknown unless that
bind includes deprecated parameters, in which case the override is
accepted (converted by the untyped rule) -/
theorem c9 (d v : Value) :
    get_parameters [⟨"z", d, PyType.object, "", false, true⟩]
      [[DeclItem.param 0]] false false true
      = .ok ([], [⟨"z", d, PyType.object, "", false, true⟩]) ∧
    get_parameters [⟨"z", d, PyType.object, "", false, true⟩]
      [[DeclItem.param 0]] false true true
      = .ok ([("z", 0)], [⟨"z", d, PyType.object, "", false, true⟩]) ∧
    parse_parameters [⟨"z", d, PyType.object, "", false, true⟩]
      [[DeclItem.param 0]] "Cls" [("z", v)] true true false
      = .error (.unknownParametersError ["z"] "Cls") ∧
    parse_parameters [⟨"z", d, PyType.object, "", false, true⟩]
      [[DeclItem.param 0]] "Cls" [("z", v)] true true true
      = .ok ([("z", if v = Value.none then d else v)],
             [⟨"z", d, PyType.object, "", false, true⟩]) :=
  ⟨rfl, rfl, rfl, rfl⟩

/-- C10: at the binding interface an override entry `{name: None}` is
indistinguishable from an absent entry, for any declared parameter that
the bind actually processes (present in the resolved mapping and not
skipped as hidden): both binds return the same result, so `None` can
never be set as an explicit value -/
theorem c10 (store : Store) (chain : Chain) (cls_name : String)
    (overrides : Dict Value) (nm : String) (cv ah dep : Bool)
    (pr : Dict Nat) (st : Store) (r : Nat)
    (habs : dictGet overrides nm = Option.none)
    (hgp : get_parameters store chain ah dep true = .ok (pr, st))
    (hr : dictGet pr nm = some r)
    (hnh : ah = true ∨ (st.getD r dummyParam).hidden = false) :
    parse_parameters store chain cls_name (dictSet overrides nm Value.none)
      cv ah dep
      = parse_parameters store chain cls_name overrides cv ah dep := by
  simp only [parse_parameters, hgp]
  rw [dictSet_append_absent overrides nm Value.none habs]
  rw [ppLoop_extra_none st nm pr ah overrides [] habs ⟨r, hr, hnh⟩]

/-- C10 witness: binding a one-parameter class with `{'a': None}` equals
binding it with no overrides -/
theorem c10_witness :
    parse_parameters [⟨"a", Value.int 1, PyType.object, "", false, false⟩]
      [[DeclItem.param 0]] "Cls" (dictSet [] "a" Value.none) true true false
      = parse_parameters [⟨"a", Value.int 1, PyType.object, "", false, false⟩]
        [[DeclItem.param 0]] "Cls" [] true true false :=
  c10 [⟨"a", Value.int 1, PyType.object, "", false, false⟩] [[DeclItem.param 0]]
    "Cls" [] "a" true true false [("a", 0)]
    [⟨"a", Value.int 1, PyType.object, "", false, false⟩] 0
    rfl rfl rfl (Or.inl rfl)

end PyPde
